import Mathlib

/-!
Verification of the DietTrack nutrition resolution pipeline and the
feedback dedup lock, as a shallow embedding in Lean 4.

Numbers are modelled as rationals.  JavaScript Math.round is round-half-up,
which coincides with Mathlib round on the rationals; rounding to one
decimal (the source helper r1) is round after scaling by 10.
-/

namespace DietTrack

/-- JavaScript Math.round on rationals (round has the half-up convention). -/
def rnd (q : ℚ) : ℚ := (round q : ℤ)

/-- The source helper r1: Math.round(n * 10) / 10 (round to one decimal). -/
def r1 (q : ℚ) : ℚ := rnd (q * 10) / 10

/-- The source helper clamp01: Math.max(0, Math.min(1, n)). -/
def clamp01 (q : ℚ) : ℚ := max 0 (min 1 q)

/-- The source helper nz: Number.isFinite(Number(v)) ? Number(v) : 0.
A null or missing value becomes 0. -/
def nz (v : Option ℚ) : ℚ := v.getD 0

/-- The source helper npos with fallback: finite and strictly positive,
else the fallback. -/
def nposFb (v : Option ℚ) (fb : ℚ) : ℚ :=
  match v with
  | some x => if 0 < x then x else fb
  | none => fb

/-- The source helper npos with the default fallback 0. -/
def npos (v : Option ℚ) : ℚ := nposFb v 0

/-- JavaScript a || b on the non-negative numbers produced by npos:
the left operand when non-zero, else the right operand. -/
def jsOr (a b : ℚ) : ℚ := if a = 0 then b else a

/-- JavaScript String.prototype.trim: whitespace stripped from both ends
(character-list implementation, so that it evaluates inside proofs). -/
def jsTrim (s : String) : String :=
  ⟨((s.data.dropWhile Char.isWhitespace).reverse.dropWhile
      Char.isWhitespace).reverse⟩

/-- JavaScript String.prototype.toLowerCase (character-list
implementation). -/
def jsToLower (s : String) : String := ⟨s.data.map Char.toLower⟩

/-- The eight macro fields of NutritionFacts (per serving or per 100 g). -/
structure NutritionFacts where
  calories : ℚ
  protein : ℚ
  carbs : ℚ
  fat : ℚ
  fiber : ℚ
  sugar : ℚ
  sodium : ℚ
  cholesterol : ℚ
deriving DecidableEq

/-- The per-serving totals row persisted with an analysis. -/
structure NutritionSummary where
  total_calories : ℚ
  total_protein : ℚ
  total_carbs : ℚ
  total_fat : ℚ
deriving DecidableEq

/-!
Embedding of saveAdjustedAnalysis (src/controllers/analysisController.ts):
stored items, adjustment edits, per-item scaling, totals and the persisted
update.
-/

/-- A stored detected item as persisted in detected_items.  estimatedGrams
is optional because the JSON field may be absent; nutritionPer100g is an
optional snapshot. -/
structure StoredItem where
  itemId : ℚ
  name : String
  confidence : ℚ
  nutrition : NutritionFacts
  estimatedGrams : Option ℚ
  nutritionPer100g : Option NutritionFacts
deriving DecidableEq

/-- One entry of the adjustedItems payload.  Absent fields are none; an
absent itemId corresponds to Number(undefined) = NaN in the source, which
never matches a stored item. -/
structure AdjustEdit where
  itemId : Option ℚ
  newGrams : Option ℚ
  nutrition : Option NutritionFacts
  nutritionPer100g : Option NutritionFacts
deriving DecidableEq

/-- oldG = Number(base?.portionSize?.estimatedGrams || 0) || 100:
an absent or zero stored grams falls back to 100, any other value is kept. -/
def oldGramsOf (g : Option ℚ) : ℚ :=
  match g with
  | some x => if x = 0 then 100 else x
  | none => 100

/-- newG = Number(a?.portionSize?.estimatedGrams ?? oldG) || oldG:
an absent or zero requested grams falls back to the old grams. -/
def newGramsOf (oldG : ℚ) (g : Option ℚ) : ℚ :=
  match g with
  | some x => if x = 0 then oldG else x
  | none => oldG

/-- scale = oldG > 0 ? newG / oldG : 1. -/
def adjScale (oldG newG : ℚ) : ℚ := if 0 < oldG then newG / oldG else 1

/-- Component-wise scaling of a stored nutrition record, with Math.round on
calories, sodium and cholesterol and one-decimal rounding on the rest
(the scaled block of saveAdjustedAnalysis). -/
def adjustNutrition (n : NutritionFacts) (s : ℚ) : NutritionFacts where
  calories := rnd (n.calories * s)
  protein := r1 (n.protein * s)
  carbs := r1 (n.carbs * s)
  fat := r1 (n.fat * s)
  fiber := r1 (n.fiber * s)
  sugar := r1 (n.sugar * s)
  sodium := rnd (n.sodium * s)
  cholesterol := rnd (n.cholesterol * s)

/-- The per100 block of saveAdjustedAnalysis: a per-100g snapshot derived
from per-serving values at the given grams. -/
def per100From (n : NutritionFacts) (g : ℚ) : NutritionFacts where
  calories := rnd (n.calories * 100 / g)
  protein := r1 (n.protein * 100 / g)
  carbs := r1 (n.carbs * 100 / g)
  fat := r1 (n.fat * 100 / g)
  fiber := r1 (n.fiber * 100 / g)
  sugar := r1 (n.sugar * 100 / g)
  sodium := rnd (n.sodium * 100 / g)
  cholesterol := rnd (n.cholesterol * 100 / g)

/-- Map construction new Map(items.map(it => [Number(it.itemId), it])):
with duplicate ids the later entry wins, so lookup folds left keeping the
last match. -/
def baseLookup (items : List StoredItem) (x : ℚ) : Option StoredItem :=
  items.foldl (fun acc it => if it.itemId = x then some it else acc) none

/-- Application of one known edit to its stored base item, mirroring the
map body of saveAdjustedAnalysis: scale the (submitted or stored)
nutrition, recompute grams, and choose the persisted per-100g snapshot as
submitted snapshot, else stored snapshot, else the recomputed one. -/
def applyEdit (base : StoredItem) (e : AdjustEdit) : StoredItem :=
  let oldG := oldGramsOf base.estimatedGrams
  let newG := newGramsOf oldG e.newGrams
  let s := adjScale oldG newG
  let n := e.nutrition.getD base.nutrition
  let scaled := adjustNutrition n s
  let per100 : Option NutritionFacts :=
    if 0 < newG then some (per100From scaled newG) else base.nutritionPer100g
  { itemId := e.itemId.getD base.itemId
    name := base.name
    confidence := base.confidence
    nutrition := scaled
    estimatedGrams := some newG
    nutritionPer100g :=
      (e.nutritionPer100g.orElse fun _ =>
        base.nutritionPer100g.orElse fun _ => per100) }

/-- An ingredient add-on row of the adjustment payload; absent numeric
fields read as 0 through Number(x || 0). -/
structure AddOn where
  name : String
  calories : ℚ
  protein : ℚ
  carbs : ℚ
  fat : ℚ
deriving DecidableEq

/-- One add-on step of the totals loops shared by analyzeFood and
saveAdjustedAnalysis: integer-rounded calories added to the running count,
one-decimal rounding after each macro addition. -/
def addOnStep (acc : NutritionSummary) (x : AddOn) : NutritionSummary where
  total_calories := acc.total_calories + rnd x.calories
  total_protein := r1 (acc.total_protein + x.protein)
  total_carbs := r1 (acc.total_carbs + x.carbs)
  total_fat := r1 (acc.total_fat + x.fat)

/-- The totals reduce of saveAdjustedAnalysis: raw running calories, and
one-decimal rounding applied after each item addition; add-ons are then
folded with the same incremental rounding. -/
def adjustedTotals (items : List StoredItem) (addOns : List AddOn) :
    NutritionSummary :=
  let t := items.foldl
    (fun acc it =>
      { total_calories := acc.total_calories + it.nutrition.calories
        total_protein := r1 (acc.total_protein + it.nutrition.protein)
        total_carbs := r1 (acc.total_carbs + it.nutrition.carbs)
        total_fat := r1 (acc.total_fat + it.nutrition.fat) })
    ⟨0, 0, 0, 0⟩
  addOns.foldl addOnStep t

/-- The totals block of analyzeFood: each macro is summed raw over the
items and rounded once at the end (Math.round for calories, r1 for the
macros), then add-ons are folded with incremental rounding. -/
def analyzeTotals (items : List StoredItem) (addOns : List AddOn) :
    NutritionSummary :=
  let base : NutritionSummary :=
    { total_calories :=
        rnd (items.foldl (fun s it => s + it.nutrition.calories) 0)
      total_protein :=
        r1 (items.foldl (fun s it => s + it.nutrition.protein) 0)
      total_carbs :=
        r1 (items.foldl (fun s it => s + it.nutrition.carbs) 0)
      total_fat :=
        r1 (items.foldl (fun s it => s + it.nutrition.fat) 0) }
  addOns.foldl addOnStep base

/-- The food_analyses row touched by saveAdjustedAnalysis. -/
structure AnalysisRecord where
  id : String
  detected_items : List StoredItem
  user_id : Option String
  adjusted_items : Option (List StoredItem)
  adjusted_nutrition_summary : Option NutritionSummary
  feedback_received : Bool
  adjusted_by : Option String
  adjusted_at : Option String
deriving DecidableEq

/-- The update call of saveAdjustedAnalysis: it writes exactly the columns
adjusted_items, adjusted_nutrition_summary, feedback_received, adjusted_by
and adjusted_at. -/
def applySaveAdjustedUpdate (rec : AnalysisRecord)
    (finalItems : List StoredItem) (totals : NutritionSummary)
    (adjustedBy : Option String) (ts : String) : AnalysisRecord :=
  { rec with
    adjusted_items := some finalItems
    adjusted_nutrition_summary := some totals
    feedback_received := true
    adjusted_by := adjustedBy
    adjusted_at := some ts }

/-- Outcome of saveAdjustedAnalysis: a 400 validation failure or a
success payload carrying the final items, the ignored ids and the totals. -/
inductive SaveResult where
  | badPayload : SaveResult
  | okR : List StoredItem → List (Option ℚ) → NutritionSummary → SaveResult
deriving DecidableEq

/-- An edit references a stored item: Number(a.itemId) is a key of the
base map.  An absent itemId is NaN and never matches. -/
def isKnownEdit (items : List StoredItem) (e : AdjustEdit) : Bool :=
  match e.itemId with
  | some x => (baseLookup items x).isSome
  | none => false

/-- adjusted.map(a => Number(a.itemId)).filter(x => !baseById.has(x)). -/
def unknownIdsOf (items : List StoredItem) (adjusted : List AdjustEdit) :
    List (Option ℚ) :=
  (adjusted.map (fun e => e.itemId)).filter
    (fun o =>
      match o with
      | some x => (baseLookup items x).isNone
      | none => true)

/-- The items actually applied: the known edits, in order, each applied to
its base item. -/
def appliedItems (items : List StoredItem) (adjusted : List AdjustEdit) :
    List StoredItem :=
  adjusted.filterMap
    (fun e =>
      match e.itemId with
      | some x => (baseLookup items x).map (fun b => applyEdit b e)
      | none => none)

/-- saveAdjustedAnalysis on an already-fetched record, returning the
response outcome and the persisted record.  An empty adjustedItems array
or a payload in which every edit is unknown fails validation (400
BAD_PAYLOAD) and leaves the record unchanged; otherwise the known edits
are applied, totals are recomputed, the update is written, and the
response reports the ignored ids. -/
def saveAdjustedAnalysis (rec : AnalysisRecord) (adjusted : List AdjustEdit)
    (addOns : List AddOn) (rawUserId : Option String) (ts : String) :
    SaveResult × AnalysisRecord :=
  if adjusted.isEmpty then (SaveResult.badPayload, rec)
  else
    let unknownIds := unknownIdsOf rec.detected_items adjusted
    if unknownIds.length = adjusted.length then (SaveResult.badPayload, rec)
    else
      let finalItems := appliedItems rec.detected_items adjusted
      let totals := adjustedTotals finalItems addOns
      let ignored := unknownIds.filter
        (fun o =>
          match o with
          | some x => finalItems.all (fun fi => fi.itemId ≠ x)
          | none => true)
      let adjustedBy :=
        match rawUserId with
        | some s => if jsTrim s = "" then rec.user_id else some (jsTrim s)
        | none => rec.user_id
      (SaveResult.okR finalItems ignored totals,
        applySaveAdjustedUpdate rec finalItems totals adjustedBy ts)

/-!
Embedding of submitFeedback (src/controllers/feedbackController.ts).
The per-key promise chain (withKeyLock) serializes the critical sections
that share a key, so a batch of concurrent identical calls is modelled as
the corresponding sequence of critical sections executed one after
another; the backing feedback table is a list of rows.
-/

/-- A feedback row; user_id is NULL for anonymous feedback. -/
structure FbRow where
  analysis_id : String
  user_id : Option String
deriving DecidableEq

/-- The duplicate check of submitFeedback: a row with this analysis_id and
this user_id exists (q.is for NULL, q.eq otherwise). -/
def hasRow (store : List FbRow) (aid : String) (uid : Option String) : Bool :=
  store.any (fun r => r.analysis_id = aid ∧ r.user_id = uid)

/-- Modelled from the spec: the backing store insert (InsertFeedback) is
not part of the source tree; per section 4.6 its uniqueness constraint on
(analysisId, userId) independently rejects a second row for the same key
with a duplicate error. -/
def insertFeedback (store : List FbRow) (row : FbRow) :
    Except Unit (List FbRow) :=
  if hasRow store row.analysis_id row.user_id then Except.error ()
  else Except.ok (store ++ [row])

/-- The critical section of submitFeedback under withKeyLock: look up an
existing row for the key and answer 409 DUPLICATE_FEEDBACK, else insert
and answer 201; a duplicate error from the insert itself also answers
409. -/
def submitFeedbackCS (aid : String) (uid : Option String)
    (store : List FbRow) : ℕ × List FbRow :=
  if hasRow store aid uid then (409, store)
  else
    match insertFeedback store ⟨aid, uid⟩ with
    | Except.error _ => (409, store)
    | Except.ok s => (201, s)

/-- userId normalization of submitFeedback: a missing or non-string value,
or a string that trims to empty, becomes null; otherwise the trimmed
string. -/
def normUserId (u : Option String) : Option String :=
  match u with
  | some s => if jsTrim s = "" then none else some (jsTrim s)
  | none => none

/-- The dedup key: FEEDBACK_TABLE, analysisId and the userId, with NULL
standing for an anonymous user. -/
def feedbackKey (table aid : String) (uid : Option String) : String :=
  table ++ ":" ++ aid ++ ":" ++ uid.getD "NULL"

/-- submitFeedback on one request: validate the analysisId (missing or
non-UUID answers 400), normalize the userId, then run the critical
section for the dedup key. -/
def submitFeedback (uuidValid : String → Bool) (aid : String)
    (rawUserId : Option String) (store : List FbRow) : ℕ × List FbRow :=
  if aid = "" then (400, store)
  else if uuidValid aid = false then (400, store)
  else submitFeedbackCS aid (normUserId rawUserId) store

/-- A batch of identical submitFeedback calls serialized by the per-key
lock: each critical section runs against the store left by the previous
one; returns the list of status codes and the final store. -/
def runSubmits (aid : String) (uid : Option String) :
    ℕ → List FbRow → List ℕ × List FbRow
  | 0, store => ([], store)
  | n + 1, store =>
    let r := submitFeedbackCS aid uid store
    let rest := runSubmits aid uid n r.2
    (r.1 :: rest.1, rest.2)

/-- Number of stored rows for a key. -/
def countRows (store : List FbRow) (aid : String) (uid : Option String) : ℕ :=
  store.countP (fun r => r.analysis_id = aid ∧ r.user_id = uid)

/-!
Embedding of combineAnalysisResults (src/services/aiAnalysis.ts).
Provider items carry an optional numeric itemId (Number of an absent field
is NaN, modelled as none).  The string keys id:…, name:… and idx:… are
modelled by an inductive key type, on which the string encoding is
injective.
-/

/-- A provider-reported detected item (the fields the combiner reads,
plus the nutrition payload it copies verbatim from the base member). -/
structure ProviderItem where
  itemId : Option ℚ
  name : String
  confidence : ℚ
  nutrition : NutritionFacts
  estimatedGrams : Option ℚ
deriving DecidableEq

/-- One provider result set. -/
structure AIAnalysisResult where
  provider : String
  detectedItems : List ProviderItem
  confidence : ℚ
  processingTimeMs : ℚ
deriving DecidableEq

/-- The merge key: id:…, name:… or idx:…. -/
inductive MergeKey where
  | kid : ℚ → MergeKey
  | kname : String → MergeKey
  | kidx : ℕ → MergeKey
deriving DecidableEq

/-- makeKey of the combiner: a finite positive numeric itemId keys by id;
else a non-empty lowercased trimmed name keys by name; else the positional
index inside its result set. -/
def makeKey (it : ProviderItem) (idx : ℕ) : MergeKey :=
  match it.itemId with
  | some q =>
    if 0 < q then MergeKey.kid q
    else
      let nm := jsTrim (jsToLower it.name)
      if nm = "" then MergeKey.kidx idx else MergeKey.kname nm
  | none =>
    let nm := jsTrim (jsToLower it.name)
    if nm = "" then MergeKey.kidx idx else MergeKey.kname nm

/-- Insertion-ordered grouping, as a JavaScript Map of arrays: a new key
is appended at the tail, an existing key has the item appended to its
group. -/
def insertGrouped (acc : List (MergeKey × List ProviderItem))
    (k : MergeKey) (it : ProviderItem) :
    List (MergeKey × List ProviderItem) :=
  match acc with
  | [] => [(k, [it])]
  | (k0, g) :: rest =>
    if k0 = k then (k0, g ++ [it]) :: rest
    else (k0, g) :: insertGrouped rest k it

/-- Group every item of every result set, in encounter order, by the given
key function (each item keyed with its index inside its own set). -/
def groupByKey (keyFn : ProviderItem → ℕ → MergeKey)
    (analyses : List AIAnalysisResult) :
    List (MergeKey × List ProviderItem) :=
  analyses.foldl
    (fun acc a =>
      a.detectedItems.enum.foldl
        (fun acc2 p => insertGrouped acc2 (keyFn p.2 p.1) p.2) acc)
    []

/-- group.reduce((s, x) => s + (x.confidence || 0.6), 0): a falsy (zero)
confidence contributes the default 0.6. -/
def confSumWithDefault (g : List ProviderItem) : ℚ :=
  g.foldl (fun s x => s + (if x.confidence = 0 then 6/10 else x.confidence)) 0

/-- The merged item of one group: every field copied from the first
member, except itemId (base itemId, else groupIndex + 1) and confidence
(clamped default-filled average). -/
def mergeGroup (g : List ProviderItem) (i : ℕ) : ProviderItem :=
  match g with
  | [] => ⟨some ((i : ℚ) + 1), "", 0, ⟨0, 0, 0, 0, 0, 0, 0, 0⟩, none⟩
  | base :: _ =>
    { base with
      itemId := some (base.itemId.getD ((i : ℚ) + 1))
      confidence := clamp01 (confSumWithDefault g / (g.length : ℚ)) }

/-- The merged item list produced from a grouping, in first-seen group
order. -/
def mergeGroups (groups : List (MergeKey × List ProviderItem)) :
    List ProviderItem :=
  groups.enum.map (fun p => mergeGroup p.2.2 p.1)

/-- combineAnalysisResults: zero result sets give an empty conservative
default, one result set is returned unchanged, otherwise items are merged
by key and the overall confidence is the clamped default-filled average of
the per-set confidences. -/
def combineAnalysisResults (analyses : List AIAnalysisResult) :
    AIAnalysisResult :=
  match analyses with
  | [] => ⟨"vision", [], 1/2, 0⟩
  | [a] => a
  | _ =>
    let combined := mergeGroups (groupByKey makeKey analyses)
    let avg :=
      (analyses.foldl
        (fun s a => s + (if a.confidence = 0 then 1/2 else a.confidence)) 0)
        / (analyses.length : ℚ)
    { provider :=
        if analyses.any (fun a => a.provider = "gemini") then "gemini"
        else "vision"
      detectedItems := combined
      confidence := clamp01 avg
      processingTimeMs :=
        (analyses.map (fun a => a.processingTimeMs)).foldl max 0 }

/-- The merge key as worded by the specification: id:… exactly when the
itemId is a positive integer. -/
def specMakeKey (it : ProviderItem) (idx : ℕ) : MergeKey :=
  match it.itemId with
  | some q =>
    if q.den = 1 ∧ 0 < q then MergeKey.kid q
    else
      let nm := jsTrim (jsToLower it.name)
      if nm = "" then MergeKey.kidx idx else MergeKey.kname nm
  | none =>
    let nm := jsTrim (jsToLower it.name)
    if nm = "" then MergeKey.kidx idx else MergeKey.kname nm

/-- The merged item as worded by the specification: the plain arithmetic
mean of the group confidences, clamped to [0, 1]. -/
def specMergeGroup (g : List ProviderItem) (i : ℕ) : ProviderItem :=
  match g with
  | [] => ⟨some ((i : ℚ) + 1), "", 0, ⟨0, 0, 0, 0, 0, 0, 0, 0⟩, none⟩
  | base :: _ =>
    { base with
      itemId := some (base.itemId.getD ((i : ℚ) + 1))
      confidence :=
        clamp01 ((g.foldl (fun s x => s + x.confidence) 0) / (g.length : ℚ)) }

/-- The merged item list as worded by the specification. -/
def specMergedItems (analyses : List AIAnalysisResult) : List ProviderItem :=
  (groupByKey specMakeKey analyses).enum.map (fun p => specMergeGroup p.2.2 p.1)

/-!
Embedding of the composition lookup chain: enrichDetectedItemsWithDB
(src/services/nutritionEnricher.ts) and fetchTopFromDB
(src/services/ifctService.ts).  An RPC call is modelled as a value of
Except String (List row): error stands for a thrown exception or a
non-null error field, both of which the source treats identically (the
call contributes nothing and the chain falls through).
-/

/-- A personal_food_lookup row. -/
structure PersonalRow where
  kind : String
  id : String
  name : String
  default_serving_g : Option ℚ
  calories_per_100g : Option ℚ
  protein_per_100g : Option ℚ
  carbs_per_100g : Option ℚ
  fat_per_100g : Option ℚ
  confidence : Option ℚ
  source : Option String
deriving DecidableEq

/-- An ingredient_lookup row. -/
structure IngredientRow where
  ingredient_id : String
  name : String
  calories_per_100g : Option ℚ
  protein_per_100g : Option ℚ
  carbs_per_100g : Option ℚ
  fat_per_100g : Option ℚ
  default_serving_g : Option ℚ
  confidence : Option ℚ
  source : Option String
deriving DecidableEq

/-- The try/catch around one RPC call: an exception or error outcome is
swallowed and contributes no rows. -/
def caughtRows {α : Type} (x : Except String (List α)) : List α :=
  match x with
  | Except.error _ => []
  | Except.ok l => l

/-- The conversion of an ingredient_lookup row into the common pick shape
used by enrichDetectedItemsWithDB (default_serving_g pinned to 100). -/
def pickOfIngredient (r : IngredientRow) : PersonalRow where
  kind := "ingredient"
  id := r.ingredient_id
  name := r.name
  default_serving_g := some 100
  calories_per_100g := r.calories_per_100g
  protein_per_100g := r.protein_per_100g
  carbs_per_100g := r.carbs_per_100g
  fat_per_100g := r.fat_per_100g
  confidence := r.confidence
  source := r.source

/-- The pick resolution of enrichDetectedItemsWithDB, as a function on the
two RPC outcomes and returning, like the async source function, an Except
that would carry any escaped exception: personal_food_lookup first, else
ingredient_lookup, else none; every call is wrapped in try/catch. -/
def enrichResolvePick (personal : Except String (List PersonalRow))
    (ingredient : Except String (List IngredientRow)) :
    Except String (Option PersonalRow) :=
  match (caughtRows personal).head? with
  | some r => Except.ok (some r)
  | none =>
    Except.ok ((caughtRows ingredient).head?.map pickOfIngredient)

/-- The IFCT composition record produced by fetchTopFromDB. -/
structure IFCTFood where
  code : Option String
  name : String
  energy_kcal_per_100g : ℚ
  protein_g_per_100g : ℚ
  fat_g_per_100g : ℚ
  carbs_g_per_100g : ℚ
  serving_size_g : ℚ
deriving DecidableEq

/-- fetchTopFromDB shaping an ingredient_lookup row (name falls back to
the query text). -/
def ifctOfIngredient (q : String) (r : IngredientRow) : IFCTFood where
  code := none
  name := if r.name = "" then q else r.name
  energy_kcal_per_100g := nz r.calories_per_100g
  protein_g_per_100g := nz r.protein_per_100g
  fat_g_per_100g := nz r.fat_per_100g
  carbs_g_per_100g := nz r.carbs_per_100g
  serving_size_g := nposFb r.default_serving_g 100

/-- fetchTopFromDB shaping a personal_food_lookup row. -/
def ifctOfPersonal (q : String) (r : PersonalRow) : IFCTFood where
  code := none
  name := if r.name = "" then q else r.name
  energy_kcal_per_100g := nz r.calories_per_100g
  protein_g_per_100g := nz r.protein_per_100g
  fat_g_per_100g := nz r.fat_per_100g
  carbs_g_per_100g := nz r.carbs_per_100g
  serving_size_g := nposFb r.default_serving_g 100

/-- fetchTopFromDB of ifctService: it tries ingredient_lookup FIRST, and
only on no result falls back to the global personal_food_lookup, from
whose rows it prefers the first ingredient-kind row, else the first row;
both calls are wrapped in try/catch and a double failure returns null. -/
def fetchTopFromDB (q : String)
    (ingredient : Except String (List IngredientRow))
    (personal : Except String (List PersonalRow)) :
    Except String (Option IFCTFood) :=
  match (caughtRows ingredient).head? with
  | some r => Except.ok (some (ifctOfIngredient q r))
  | none =>
    let l := caughtRows personal
    let pick :=
      match l.find? (fun r => r.kind = "ingredient") with
      | some r => some r
      | none => l.head?
    Except.ok (pick.map (ifctOfPersonal q))

/-- The resolution order as worded by the specification and the claim:
the personal/global lookup first, the ingredient-only lookup second, null
when both fail. -/
def specFetchTopPersonalFirst (q : String)
    (ingredient : Except String (List IngredientRow))
    (personal : Except String (List PersonalRow)) :
    Except String (Option IFCTFood) :=
  let l := caughtRows personal
  let pick :=
    match l.find? (fun r => r.kind = "ingredient") with
    | some r => some r
    | none => l.head?
  match pick with
  | some r => Except.ok (some (ifctOfPersonal q r))
  | none =>
    Except.ok ((caughtRows ingredient).head?.map (ifctOfIngredient q))

/-- The grams choice of enrichDetectedItemsWithDB: matched user serving
override, else detection estimate, else the match default serving, else
100 (each taken only when strictly positive). -/
def chooseGramsEnrich (ovr est dfl : Option ℚ) : ℚ :=
  jsOr (npos ovr) (jsOr (npos est) (jsOr (npos dfl) 100))

/-- The grams choice of enrichWithIFCTData: the detection estimate under
its three field spellings, else the match serving size with fallback
100.  No user serving override exists on this path. -/
def chooseGramsIFCT (portionG portionSizeG estGrams servingSizeG : Option ℚ) :
    ℚ :=
  jsOr (npos portionG)
    (jsOr (npos portionSizeG)
      (jsOr (npos estGrams) (nposFb servingSizeG 100)))

/-- The per-100g macro block consumed by macrosFromPer100. -/
structure Macros4 where
  calories_per_100g : ℚ
  protein_per_100g : ℚ
  carbs_per_100g : ℚ
  fat_per_100g : ℚ
deriving DecidableEq

/-- The per-serving macro block produced by macrosFromPer100. -/
structure Serving4 where
  calories : ℚ
  protein : ℚ
  carbs : ℚ
  fat : ℚ
deriving DecidableEq

/-- macrosFromPer100 of the nutrition enricher: per-100g values scaled by
grams / 100, Math.round on calories and one-decimal rounding on the
macros. -/
def macrosFromPer100 (per100 : Macros4) (grams : ℚ) : Serving4 where
  calories := rnd (per100.calories_per_100g * (grams / 100))
  protein := r1 (per100.protein_per_100g * (grams / 100))
  carbs := r1 (per100.carbs_per_100g * (grams / 100))
  fat := r1 (per100.fat_per_100g * (grams / 100))

/-- The full eight-field portion scaling rule (section 4.3): the same
formula macrosFromPer100 applies to its four fields, which coincides with
the adjustment scaling applied at factor grams / 100. -/
def scalePer100 (m : NutritionFacts) (grams : ℚ) : NutritionFacts :=
  adjustNutrition m (grams / 100)

/-- The round trip of the scaling-consistency property: scale the per-100g
record m to grams g, store it at g grams, then rescale to 100 g through
the adjustment rule of saveAdjustedAnalysis. -/
def roundTrip (m : NutritionFacts) (g : ℚ) : NutritionFacts :=
  (applyEdit
    { itemId := 1, name := "", confidence := 1,
      nutrition := scalePer100 m g, estimatedGrams := some g,
      nutritionPer100g := none }
    { itemId := some 1, newGrams := some 100,
      nutrition := none, nutritionPer100g := none }).nutrition

/-!
Specification-side definitions (worded from the claims, for comparison
with the source-derived functions above).
-/

/-- The totals accumulation as worded by the claim of section 4.4:
total_calories as an integer running sum (add-on calories rounded on
addition), and one-decimal rounding applied after each item addition and
after each add-on addition. -/
def specIncTotals (items : List StoredItem) (addOns : List AddOn) :
    NutritionSummary :=
  let t := items.foldl
    (fun acc it =>
      { total_calories := acc.total_calories + it.nutrition.calories
        total_protein := r1 (acc.total_protein + it.nutrition.protein)
        total_carbs := r1 (acc.total_carbs + it.nutrition.carbs)
        total_fat := r1 (acc.total_fat + it.nutrition.fat) })
    ⟨0, 0, 0, 0⟩
  addOns.foldl addOnStep t

/-- The adjustment of one item as worded by the original claim: the scale
factor is newGrams / max(oldGrams, 1) with oldGrams the stored
estimatedGrams defaulting to 100 when absent, the stored nutrition is
scaled with the stated rounding, and the per-100g snapshot is recomputed
from the scaled values at newGrams. -/
def specAdjustItem (base : StoredItem) (newG : ℚ) : StoredItem :=
  let oldG := base.estimatedGrams.getD 100
  let s := newG / max oldG 1
  let scaled := adjustNutrition base.nutrition s
  { base with
    nutrition := scaled
    estimatedGrams := some newG
    nutritionPer100g := some (per100From scaled newG) }

/-- The adjustment of one item as worded by the amended claim: oldGrams is
the stored estimatedGrams when present and non-zero, else 100; the scale
factor is newGrams / oldGrams when oldGrams is positive and 1 otherwise
(newGrams falling back to oldGrams when absent or zero); the stored
nutrition is scaled with the stated rounding; and the persisted per-100g
snapshot keeps the stored snapshot when one is present, a snapshot
recomputed from the scaled values at newGrams being used only when the
stored item carries none and newGrams is positive. -/
def specAdjustItemAmended (base : StoredItem) (e : AdjustEdit) : StoredItem :=
  let oldG :=
    match base.estimatedGrams with
    | some x => if x = 0 then 100 else x
    | none => 100
  let newG :=
    match e.newGrams with
    | some x => if x = 0 then oldG else x
    | none => oldG
  let s := if 0 < oldG then newG / oldG else 1
  let scaled := adjustNutrition base.nutrition s
  { base with
    itemId := e.itemId.getD base.itemId
    nutrition := scaled
    estimatedGrams := some newG
    nutritionPer100g :=
      match base.nutritionPer100g with
      | some snap => some snap
      | none => if 0 < newG then some (per100From scaled newG) else none }

/-- The enrichment pick as worded by the amended claim: the personal/
global lookup first, the ingredient-only lookup only when it yields
nothing, none when both yield nothing; a failed call contributes
nothing. -/
def specEnrichPick (personal : Except String (List PersonalRow))
    (ingredient : Except String (List IngredientRow)) : Option PersonalRow :=
  match (caughtRows personal).head? with
  | some r => some r
  | none => (caughtRows ingredient).head?.map pickOfIngredient

/-- The IFCT text-path pick as worded by the amended claim: the
ingredient-only lookup FIRST, then the global personal lookup (preferring
its first ingredient-kind row), null when both yield nothing; a failed
call contributes nothing. -/
def specIFCTPick (q : String)
    (ingredient : Except String (List IngredientRow))
    (personal : Except String (List PersonalRow)) : Option IFCTFood :=
  match (caughtRows ingredient).head? with
  | some r => some (ifctOfIngredient q r)
  | none =>
    ((match (caughtRows personal).find? (fun r => r.kind = "ingredient") with
      | some r => some r
      | none => (caughtRows personal).head?) : Option PersonalRow).map
      (ifctOfPersonal q)

/-!
Concrete inputs used by witnesses and counterexamples.
-/

/-- A personal_food_lookup row distinct from the ingredient row. -/
def exPerRow : PersonalRow :=
  ⟨"recipe", "p1", "personal dish", some 150, some 200, some 5, some 30,
    some 2, some (9/10), some "personal"⟩

/-- An ingredient_lookup row distinct from the personal row. -/
def exIngRow : IngredientRow :=
  ⟨"i1", "ingredient food", some 100, some 3, some 20, some 1, some 50,
    some (8/10), some "global"⟩

/-- A per-100g record for the C9 counterexample: 14 kcal per 100 g. -/
def cexM : NutritionFacts := ⟨14, 1, 1, 1, 1, 1, 14, 14⟩

/-- The item of the first provider set: itemId 1, confidence 0.6. -/
def exProvItem1 : ProviderItem :=
  ⟨some 1, "dal", 6/10, ⟨0, 0, 0, 0, 0, 0, 0, 0⟩, none⟩

/-- The item of the second provider set: itemId 1, confidence 0.8. -/
def exProvItem2 : ProviderItem :=
  ⟨some 1, "dal", 8/10, ⟨0, 0, 0, 0, 0, 0, 0, 0⟩, none⟩

/-- The first provider result set. -/
def exSet1 : AIAnalysisResult := ⟨"gemini", [exProvItem1], 8/10, 100⟩

/-- The second provider result set. -/
def exSet2 : AIAnalysisResult := ⟨"vision", [exProvItem2], 7/10, 120⟩

/-- The rational 5/2 (built field-wise so that it evaluates inside
proofs): a positive itemId that is not an integer. -/
def cexFracId : ℚ := ⟨5, 2, by decide, by decide⟩

/-- An item with the non-integer positive itemId 5/2, confidence 0 and
name alpha, for the C2 counterexample. -/
def cexProvItemA : ProviderItem :=
  ⟨some cexFracId, "alpha", 0, ⟨0, 0, 0, 0, 0, 0, 0, 0⟩, none⟩

/-- An item with the same non-integer positive itemId 5/2, confidence 0.8
and name beta, for the C2 counterexample. -/
def cexProvItemB : ProviderItem :=
  ⟨some cexFracId, "beta", 8/10, ⟨0, 0, 0, 0, 0, 0, 0, 0⟩, none⟩

/-- The first result set of the C2 counterexample. -/
def cexSetA : AIAnalysisResult := ⟨"vision", [cexProvItemA], 1/2, 10⟩

/-- The second result set of the C2 counterexample. -/
def cexSetB : AIAnalysisResult := ⟨"vision", [cexProvItemB], 1/2, 10⟩

/-- The merge key as worded by the amended claim: id:… for any positive
numeric itemId, integer or not; else the non-empty lowercased trimmed
name; else the positional index inside its result set. -/
def specMakeKeyAmended (it : ProviderItem) (idx : ℕ) : MergeKey :=
  match it.itemId with
  | some q =>
    if 0 < q then MergeKey.kid q
    else
      let nm := jsTrim (jsToLower it.name)
      if nm = "" then MergeKey.kidx idx else MergeKey.kname nm
  | none =>
    let nm := jsTrim (jsToLower it.name)
    if nm = "" then MergeKey.kidx idx else MergeKey.kname nm

/-- The merged item as worded by the amended claim: every field copied
from the group's first member except itemId (the base itemId, else
groupIndex + 1) and confidence — the arithmetic mean, clamped to [0, 1],
in which a missing or zero member confidence counts as 0.6. -/
def specMergeGroupAmended (g : List ProviderItem) (i : ℕ) : ProviderItem :=
  match g with
  | [] => ⟨some ((i : ℚ) + 1), "", 0, ⟨0, 0, 0, 0, 0, 0, 0, 0⟩, none⟩
  | base :: _ =>
    { base with
      itemId := some (base.itemId.getD ((i : ℚ) + 1))
      confidence :=
        clamp01
          ((g.foldl
              (fun s x =>
                s + (if x.confidence = 0 then 6/10 else x.confidence)) 0)
            / (g.length : ℚ)) }

/-- The merged item list as worded by the amended claim. -/
def specMergedItemsAmended (analyses : List AIAnalysisResult) :
    List ProviderItem :=
  (groupByKey specMakeKeyAmended analyses).enum.map
    (fun p => specMergeGroupAmended p.2.2 p.1)

/-- A stored rice item: 100 g serving, 100 kcal, with a per-100g
snapshot. -/
def exItem1 : StoredItem :=
  ⟨1, "rice", 9/10, ⟨100, 10, 20, 5, 1, 1, 10, 0⟩, some 100,
    some ⟨100, 10, 20, 5, 1, 1, 10, 0⟩⟩

/-- A stored record holding exItem1. -/
def exRec : AnalysisRecord :=
  ⟨"a1", [exItem1], none, none, none, false, none, none⟩

/-- An edit referencing the known itemId 1. -/
def exEditKnown : AdjustEdit := ⟨some 1, some 200, none, none⟩

/-- An edit referencing the unknown itemId 2. -/
def exEditUnknown : AdjustEdit := ⟨some 2, some 50, none, none⟩

/-- A stored item with fractional stored grams (1/2 g) and a stored
per-100g snapshot, for the C3 counterexample. -/
def cexBase : StoredItem :=
  ⟨1, "x", 1, ⟨100, 10, 10, 10, 1, 1, 100, 10⟩, some (1/2),
    some ⟨7, 7, 7, 7, 7, 7, 7, 7⟩⟩

/-- An edit of cexBase to 1 g. -/
def cexEdit : AdjustEdit := ⟨some 1, some 1, none, none⟩

/-- Two items whose protein is 0.06 g, for the C5 counterexample. -/
def cexTotalsItems : List StoredItem :=
  [⟨1, "a", 1, ⟨0, 3/50, 0, 0, 0, 0, 0, 0⟩, none, none⟩,
   ⟨2, "b", 1, ⟨0, 3/50, 0, 0, 0, 0, 0, 0⟩, none, none⟩]

/-!
Theorems.
-/

/-- Claim C8: saveAdjustedAnalysis never modifies the stored detected
items (nor the record id or owner): for every request, whether it fails
validation or succeeds, the persisted record keeps detected_items, id and
user_id unchanged, the successful update writing only adjusted_items,
adjusted_nutrition_summary, feedback_received, adjusted_by and
adjusted_at. -/
theorem saveAdjusted_preserves_detected_items
    (rec : AnalysisRecord) (adjusted : List AdjustEdit) (addOns : List AddOn)
    (rawUserId : Option String) (ts : String) :
    (saveAdjustedAnalysis rec adjusted addOns rawUserId ts).2.detected_items
        = rec.detected_items ∧
    (saveAdjustedAnalysis rec adjusted addOns rawUserId ts).2.id = rec.id ∧
    (saveAdjustedAnalysis rec adjusted addOns rawUserId ts).2.user_id
        = rec.user_id := by
  by_cases h1 : adjusted.isEmpty
  · simp [saveAdjustedAnalysis, h1]
  · by_cases h2 :
      (unknownIdsOf rec.detected_items adjusted).length = adjusted.length
    · simp [saveAdjustedAnalysis, h1, h2]
    · simp [saveAdjustedAnalysis, h1, h2, applySaveAdjustedUpdate]

/-- A duplicate key makes the critical section answer 409 and leave the
store unchanged. -/
lemma submitFeedbackCS_dup {aid : String} {uid : Option String}
    {store : List FbRow} (h : hasRow store aid uid = true) :
    submitFeedbackCS aid uid store = (409, store) := by
  simp [submitFeedbackCS, h]

/-- A fresh key makes the critical section insert the row and answer 201. -/
lemma submitFeedbackCS_new {aid : String} {uid : Option String}
    {store : List FbRow} (h : hasRow store aid uid = false) :
    submitFeedbackCS aid uid store = (201, store ++ [⟨aid, uid⟩]) := by
  simp [submitFeedbackCS, insertFeedback, h]

/-- Appending the row for a key makes the key present. -/
lemma hasRow_append_self (store : List FbRow) (aid : String)
    (uid : Option String) :
    hasRow (store ++ [⟨aid, uid⟩]) aid uid = true := by
  simp [hasRow]

/-- Once the key is present every serialized call answers 409 and the
store never changes. -/
lemma runSubmits_dup {aid : String} {uid : Option String}
    {store : List FbRow} (h : hasRow store aid uid = true) :
    ∀ n : ℕ, runSubmits aid uid n store = (List.replicate n 409, store) := by
  intro n
  induction n with
  | zero => simp [runSubmits]
  | succ k ih =>
    simp [runSubmits, submitFeedbackCS_dup h, ih, List.replicate_succ]

/-- Appending the row for a key raises its row count by one. -/
lemma countRows_append_self (store : List FbRow) (aid : String)
    (uid : Option String) :
    countRows (store ++ [⟨aid, uid⟩]) aid uid = countRows store aid uid + 1 := by
  simp [countRows, List.countP_append, List.countP_cons]

/-- An absent key has row count zero. -/
lemma countRows_eq_zero {store : List FbRow} {aid : String}
    {uid : Option String} (h : hasRow store aid uid = false) :
    countRows store aid uid = 0 := by
  unfold hasRow at h
  unfold countRows
  rw [List.countP_eq_zero]
  intro r hr
  rw [List.any_eq_false] at h
  exact h r hr

/-- Claim C1: for a key whose row is already stored, every submitFeedback
critical section answers 409 DUPLICATE_FEEDBACK without inserting; and for
a key not yet stored, any batch of n + 1 identical calls — concurrent
callers being serialized FIFO by the per-key lock, hence executed one
after another — yields exactly one 201 followed by n 409 conflicts, and
exactly one row for the key is added to the store. -/
theorem submitFeedback_at_most_one (aid : String) (uid : Option String)
    (store : List FbRow) :
    (hasRow store aid uid = true →
      submitFeedbackCS aid uid store = (409, store)) ∧
    (hasRow store aid uid = false → ∀ n : ℕ,
      (runSubmits aid uid (n + 1) store).1 = 201 :: List.replicate n 409 ∧
      countRows (runSubmits aid uid (n + 1) store).2 aid uid
          = countRows store aid uid + 1) := by
  constructor
  · exact fun h => submitFeedbackCS_dup h
  · intro h n
    have hstep := submitFeedbackCS_new h
    have hdup := @runSubmits_dup aid uid (store ++ [⟨aid, uid⟩])
      (hasRow_append_self store aid uid) n
    constructor
    · show (runSubmits aid uid (n + 1) store).1 = _
      simp [runSubmits, hstep, hdup]
    · show countRows (runSubmits aid uid (n + 1) store).2 aid uid = _
      simp [runSubmits, hstep, hdup, countRows_append_self]

/-- Witness for C1: two serialized identical calls on an empty store give
statuses 201 then 409 and a single stored row. -/
theorem submitFeedback_at_most_one_witness :
    hasRow [] "a0000000-0000-4000-8000-000000000000" (some "u") = false ∧
    ((runSubmits "a0000000-0000-4000-8000-000000000000" (some "u") 2 []).1
        = 201 :: List.replicate 1 409 ∧
      countRows
        (runSubmits "a0000000-0000-4000-8000-000000000000" (some "u") 2 []).2
        "a0000000-0000-4000-8000-000000000000" (some "u")
          = countRows [] "a0000000-0000-4000-8000-000000000000" (some "u")
              + 1) :=
  ⟨by decide,
    (submitFeedback_at_most_one "a0000000-0000-4000-8000-000000000000"
      (some "u") []).2 (by decide) 1⟩

/-- Claim C10: a missing or empty userId is normalized to null, so the
dedup key of every anonymous submission for an analysis is the same key
ending in NULL, the duplicate check matches the stored NULL row, and at
most one anonymous feedback row exists per analysis: the first anonymous
submission answers 201 and stores the NULL row, a second one answers 409
DUPLICATE_FEEDBACK and stores nothing. -/
theorem submitFeedback_anonymous_null (uuidValid : String → Bool)
    (table aid : String) (u1 u2 : Option String) (store : List FbRow)
    (ha : aid ≠ "") (hv : uuidValid aid = true)
    (h1 : normUserId u1 = none) (h2 : normUserId u2 = none)
    (h0 : hasRow store aid none = false) :
    feedbackKey table aid (normUserId u1)
        = feedbackKey table aid (normUserId u2) ∧
    (∃ p, feedbackKey table aid (normUserId u1) = p ++ "NULL") ∧
    submitFeedback uuidValid aid u1 store
        = (201, store ++ [⟨aid, none⟩]) ∧
    submitFeedback uuidValid aid u2 (store ++ [⟨aid, none⟩])
        = (409, store ++ [⟨aid, none⟩]) ∧
    countRows (store ++ [⟨aid, none⟩]) aid none = 1 := by
  refine ⟨by rw [h1, h2], ⟨table ++ ":" ++ aid ++ ":", by simp [feedbackKey, h1]⟩,
    ?_, ?_, ?_⟩
  · simp [submitFeedback, ha, hv, h1, submitFeedbackCS_new h0]
  · simp [submitFeedback, ha, hv, h2,
      submitFeedbackCS_dup (hasRow_append_self store aid none)]
  · rw [countRows_append_self, countRows_eq_zero h0]

/-- Witness for C10: a request with no userId and one with a whitespace
userId on an empty store. -/
theorem submitFeedback_anonymous_null_witness :
    ((fun _ => true : String → Bool) "b0000000-0000-4000-8000-000000000000"
        = true) ∧
    normUserId none = none ∧
    normUserId (some " ") = none ∧
    (feedbackKey "analysis_feedback" "b0000000-0000-4000-8000-000000000000"
          (normUserId none)
        = feedbackKey "analysis_feedback" "b0000000-0000-4000-8000-000000000000"
            (normUserId (some " ")) ∧
      (∃ p, feedbackKey "analysis_feedback"
          "b0000000-0000-4000-8000-000000000000" (normUserId none)
            = p ++ "NULL") ∧
      submitFeedback (fun _ => true) "b0000000-0000-4000-8000-000000000000"
          none []
        = (201, [⟨"b0000000-0000-4000-8000-000000000000", none⟩]) ∧
      submitFeedback (fun _ => true) "b0000000-0000-4000-8000-000000000000"
          (some " ") [⟨"b0000000-0000-4000-8000-000000000000", none⟩]
        = (409, [⟨"b0000000-0000-4000-8000-000000000000", none⟩]) ∧
      countRows [⟨"b0000000-0000-4000-8000-000000000000", none⟩]
          "b0000000-0000-4000-8000-000000000000" none = 1) :=
  ⟨rfl, rfl, by decide,
    by
      have h := submitFeedback_anonymous_null (fun _ => true)
        "analysis_feedback" "b0000000-0000-4000-8000-000000000000"
        none (some " ") [] (by decide) rfl rfl (by decide) (by decide)
      simpa using h⟩

/-- A filter keeps the whole list exactly when every element satisfies the
predicate. -/
lemma length_filter_eq_iff {α : Type} (p : α → Bool) (l : List α) :
    (l.filter p).length = l.length ↔ ∀ a ∈ l, p a := by
  induction l with
  | nil => simp
  | cons a t ih =>
    rw [List.filter_cons]
    by_cases h : p a
    · simp [h, ih]
    · rw [if_neg h]
      simp only [List.length_cons]
      constructor
      · intro hl
        exfalso
        have hle := List.length_filter_le p t
        omega
      · intro hall
        exact absurd (hall a (List.mem_cons_self a t)) (by simpa using h)

/-- The filter predicate of the unknown-ids collection, applied to the
itemId of an edit, is the negation of the known-edit test. -/
lemma unknownPred_eq_not_known (items : List StoredItem) (e : AdjustEdit) :
    (match e.itemId with
      | some x => (baseLookup items x).isNone
      | none => true) = !(isKnownEdit items e) := by
  unfold isKnownEdit
  cases e.itemId with
  | none => rfl
  | some x => simp [Option.isNone_iff_eq_none, Option.isSome_iff_ne_none]

/-- The length of the unknown-ids list equals the number of edits exactly
when no edit is known. -/
lemma unknownIds_length_eq_iff (items : List StoredItem)
    (adjusted : List AdjustEdit) :
    (unknownIdsOf items adjusted).length = adjusted.length ↔
      ∀ e ∈ adjusted, isKnownEdit items e = false := by
  unfold unknownIdsOf
  rw [show adjusted.length = (adjusted.map (fun e => e.itemId)).length by
    simp, length_filter_eq_iff]
  constructor
  · intro h e he
    have := h e.itemId (List.mem_map_of_mem _ he)
    rw [unknownPred_eq_not_known items e] at this
    simpa using this
  · intro h o ho
    obtain ⟨e, he, rfl⟩ := List.mem_map.mp ho
    rw [unknownPred_eq_not_known items e, h e he]
    rfl

/-- Every item produced by appliedItems carries the id of a known stored
item. -/
lemma appliedItems_itemId_known (items : List StoredItem)
    (adjusted : List AdjustEdit) (fi : StoredItem)
    (hfi : fi ∈ appliedItems items adjusted) :
    (baseLookup items fi.itemId).isSome := by
  unfold appliedItems at hfi
  obtain ⟨e, _, hfe⟩ := List.mem_filterMap.mp hfi
  cases hx : e.itemId with
  | none => simp [hx] at hfe
  | some x =>
    simp only [hx] at hfe
    cases hb : baseLookup items x with
    | none => simp [hb] at hfe
    | some b =>
      simp only [hb, Option.map_some'] at hfe
      have hid : (applyEdit b e).itemId = x := by
        simp [applyEdit, hx]
      have hfe2 : applyEdit b e = fi := by injection hfe
      rw [← hfe2, hid, hb]
      rfl

/-- The response-side filter of the ignored ids is a no-op: every unknown
id differs from every applied item id. -/
lemma ignored_filter_eq (items : List StoredItem)
    (adjusted : List AdjustEdit) :
    (unknownIdsOf items adjusted).filter
      (fun o =>
        match o with
        | some x => (appliedItems items adjusted).all (fun fi => fi.itemId ≠ x)
        | none => true)
      = unknownIdsOf items adjusted := by
  apply List.filter_eq_self.mpr
  intro o ho
  unfold unknownIdsOf at ho
  have hp := List.of_mem_filter ho
  cases o with
  | none => rfl
  | some x =>
    have hp2 : baseLookup items x = none := by
      simpa [Option.isNone_iff_eq_none] using hp
    show (appliedItems items adjusted).all (fun fi => fi.itemId ≠ x) = true
    rw [List.all_eq_true]
    intro fi hfi
    have hk := appliedItems_itemId_known items adjusted fi hfi
    simp only [ne_eq, decide_eq_true_eq]
    intro hEq
    rw [hEq, hp2] at hk
    simp at hk

/-- Claim C4: a non-empty adjustment request with at least one known edit
succeeds, applying exactly the known edits and reporting every unknown
itemId in the ignored list; a non-empty request in which every edit is
unknown fails validation with 400 BAD_PAYLOAD and leaves the record
unchanged. -/
theorem saveAdjusted_partial_success (rec : AnalysisRecord)
    (adjusted : List AdjustEdit) (addOns : List AddOn)
    (rawUserId : Option String) (ts : String) (hne : adjusted ≠ []) :
    ((∃ e ∈ adjusted, isKnownEdit rec.detected_items e = true) →
      (saveAdjustedAnalysis rec adjusted addOns rawUserId ts).1 =
        SaveResult.okR (appliedItems rec.detected_items adjusted)
          (unknownIdsOf rec.detected_items adjusted)
          (adjustedTotals (appliedItems rec.detected_items adjusted) addOns) ∧
      ∀ e ∈ adjusted, isKnownEdit rec.detected_items e = false →
        e.itemId ∈ unknownIdsOf rec.detected_items adjusted) ∧
    ((∀ e ∈ adjusted, isKnownEdit rec.detected_items e = false) →
      saveAdjustedAnalysis rec adjusted addOns rawUserId ts =
        (SaveResult.badPayload, rec)) := by
  have hni : adjusted.isEmpty = false := by
    cases adjusted with
    | nil => exact absurd rfl hne
    | cons a t => rfl
  constructor
  · intro hsome
    have hlen :
        (unknownIdsOf rec.detected_items adjusted).length ≠ adjusted.length := by
      intro hEq
      obtain ⟨e, he, hk⟩ := hsome
      have := (unknownIds_length_eq_iff rec.detected_items adjusted).mp hEq e he
      rw [hk] at this
      exact absurd this (by simp)
    constructor
    · simp only [saveAdjustedAnalysis, hni, Bool.false_eq_true, if_false,
        hlen, ignored_filter_eq]
    · intro e he hk
      unfold unknownIdsOf
      apply List.mem_filter_of_mem (List.mem_map_of_mem _ he)
      rw [unknownPred_eq_not_known rec.detected_items e, hk]
      rfl
  · intro hall
    have hlen := (unknownIds_length_eq_iff rec.detected_items adjusted).mpr hall
    simp [saveAdjustedAnalysis, hni, hlen]

/-- Witness for C4: one known and one unknown edit against a one-item
record. -/
theorem saveAdjusted_partial_success_witness :
    ([exEditKnown, exEditUnknown] : List AdjustEdit) ≠ [] ∧
    (∃ e ∈ [exEditKnown, exEditUnknown],
      isKnownEdit exRec.detected_items e = true) ∧
    ((saveAdjustedAnalysis exRec [exEditKnown, exEditUnknown] [] none "t").1 =
        SaveResult.okR
          (appliedItems exRec.detected_items [exEditKnown, exEditUnknown])
          (unknownIdsOf exRec.detected_items [exEditKnown, exEditUnknown])
          (adjustedTotals
            (appliedItems exRec.detected_items [exEditKnown, exEditUnknown])
            []) ∧
      ∀ e ∈ [exEditKnown, exEditUnknown],
        isKnownEdit exRec.detected_items e = false →
          e.itemId ∈ unknownIdsOf exRec.detected_items
            [exEditKnown, exEditUnknown]) :=
  ⟨by decide, by decide,
    (saveAdjusted_partial_success exRec [exEditKnown, exEditUnknown] [] none
      "t" (by decide)).1 (by decide)⟩

/-- Counterexample for C3: for a stored item with estimatedGrams 1/2 and a
stored per-100g snapshot, an edit to 1 g is not what the claim predicts:
the source applies scale newGrams / oldGrams = 2 (not
newGrams / max(oldGrams, 1) = 1) and it keeps the stored per-100g snapshot
instead of recomputing one from the scaled values. -/
theorem adjust_scale_claim_counterexample :
    applyEdit cexBase cexEdit ≠ specAdjustItem cexBase 1 := by
  have hL : (applyEdit cexBase cexEdit).nutrition.calories = 200 := by
    norm_num [applyEdit, cexBase, cexEdit, oldGramsOf, newGramsOf, adjScale,
      adjustNutrition, rnd, round_eq]
  have hR : (specAdjustItem cexBase 1).nutrition.calories = 100 := by
    norm_num [specAdjustItem, cexBase, adjustNutrition, rnd, round_eq,
      max_def]
  intro h
  have hc := congrArg (fun it => it.nutrition.calories) h
  simp only at hc
  rw [hL, hR] at hc
  exact absurd hc (by norm_num)

/-- Claim C3 as amended: for an edit carrying no nutrition payload of its
own, the applied scale factor is newGrams / oldGrams — oldGrams being the
stored estimatedGrams when non-zero, else 100, and the factor 1 when
oldGrams is not positive — the already-stored per-serving nutrition is
multiplied component-wise by this factor with the stated rounding, and the
persisted per-100g snapshot keeps the stored snapshot when one exists, a
snapshot recomputed from the scaled values at newGrams being used only
when the stored item has none. -/
theorem adjust_scale_amended (base : StoredItem) (e : AdjustEdit)
    (h1 : e.nutrition = none) (h2 : e.nutritionPer100g = none) :
    applyEdit base e = specAdjustItemAmended base e := by
  obtain ⟨eid, eng, enut, ep100⟩ := e
  simp only at h1 h2
  subst h1
  subst h2
  unfold applyEdit specAdjustItemAmended oldGramsOf newGramsOf adjScale
  cases hb : base.nutritionPer100g with
  | some snap =>
    cases base.estimatedGrams <;> cases eng <;> simp [Option.orElse, hb]
  | none =>
    cases base.estimatedGrams <;> cases eng <;> simp [Option.orElse, hb]

/-- Witness for the amended C3: the counterexample input, evaluated. -/
theorem adjust_scale_amended_witness :
    cexEdit.nutrition = none ∧ cexEdit.nutritionPer100g = none ∧
    applyEdit cexBase cexEdit = specAdjustItemAmended cexBase cexEdit :=
  ⟨rfl, rfl, adjust_scale_amended cexBase cexEdit rfl rfl⟩

/-- Math.round of an integer value is the identity. -/
lemma rnd_intCast (k : ℤ) : rnd (k : ℚ) = (k : ℚ) := by
  simp [rnd, round_intCast]

/-- One-decimal rounding of an exact tenth is the identity. -/
lemma r1_tenths (k : ℤ) : r1 ((k : ℚ) / 10) = (k : ℚ) / 10 := by
  unfold r1
  rw [div_mul_cancel₀ _ (by norm_num : (10 : ℚ) ≠ 0), rnd_intCast]

/-- One-decimal rounding is the identity on any exact tenth. -/
lemma r1_eq_self_of_tenths {a : ℚ} (ha : ∃ k : ℤ, a = (k : ℚ) / 10) :
    r1 a = a := by
  obtain ⟨k, rfl⟩ := ha
  exact r1_tenths k

/-- Exact tenths are closed under addition. -/
lemma exists_tenths_add {a b : ℚ} (ha : ∃ k : ℤ, a = (k : ℚ) / 10)
    (hb : ∃ k : ℤ, b = (k : ℚ) / 10) :
    ∃ k : ℤ, a + b = (k : ℚ) / 10 := by
  obtain ⟨k1, rfl⟩ := ha
  obtain ⟨k2, rfl⟩ := hb
  exact ⟨k1 + k2, by push_cast; ring⟩

/-- An additive fold is the accumulator plus the sum of the images. -/
lemma foldl_add_eq_sum (f : StoredItem → ℚ) (l : List StoredItem) :
    ∀ a : ℚ, l.foldl (fun s it => s + f it) a = a + (l.map f).sum := by
  induction l with
  | nil => intro a; simp
  | cons x t ih =>
    intro a
    simp only [List.foldl_cons, List.map_cons, List.sum_cons]
    rw [ih (a + f x)]
    ring

/-- A sum of integer-valued images is integer valued. -/
lemma sum_int_form (f : StoredItem → ℚ) (l : List StoredItem)
    (h : ∀ it ∈ l, ∃ k : ℤ, f it = (k : ℚ)) :
    ∃ k : ℤ, (l.map f).sum = (k : ℚ) := by
  induction l with
  | nil => exact ⟨0, by simp⟩
  | cons x t ih =>
    obtain ⟨kx, hkx⟩ := h x (List.mem_cons_self x t)
    obtain ⟨kt, hkt⟩ := ih (fun it hit => h it (List.mem_cons_of_mem x hit))
    refine ⟨kx + kt, ?_⟩
    simp only [List.map_cons, List.sum_cons]
    rw [hkt, hkx]
    push_cast
    ring

/-- A sum of tenth-valued images is tenth valued. -/
lemma sum_tenths_form (f : StoredItem → ℚ) (l : List StoredItem)
    (h : ∀ it ∈ l, ∃ k : ℤ, f it = (k : ℚ) / 10) :
    ∃ k : ℤ, (l.map f).sum = (k : ℚ) / 10 := by
  induction l with
  | nil => exact ⟨0, by simp⟩
  | cons x t ih =>
    obtain ⟨kx, hkx⟩ := h x (List.mem_cons_self x t)
    obtain ⟨kt, hkt⟩ := ih (fun it hit => h it (List.mem_cons_of_mem x hit))
    refine ⟨kx + kt, ?_⟩
    simp only [List.map_cons, List.sum_cons]
    rw [hkt, hkx]
    push_cast
    ring

/-- On wire-contract items (integer calories, one-decimal macros) the
incrementally-rounded item fold computes the raw running sums. -/
lemma incFold_eq (items : List StoredItem)
    (h : ∀ it ∈ items,
      (∃ k : ℤ, it.nutrition.calories = (k : ℚ)) ∧
      (∃ k : ℤ, it.nutrition.protein = (k : ℚ) / 10) ∧
      (∃ k : ℤ, it.nutrition.carbs = (k : ℚ) / 10) ∧
      (∃ k : ℤ, it.nutrition.fat = (k : ℚ) / 10)) :
    ∀ init : NutritionSummary,
      (∃ k : ℤ, init.total_protein = (k : ℚ) / 10) →
      (∃ k : ℤ, init.total_carbs = (k : ℚ) / 10) →
      (∃ k : ℤ, init.total_fat = (k : ℚ) / 10) →
      items.foldl
        (fun acc it =>
          { total_calories := acc.total_calories + it.nutrition.calories
            total_protein := r1 (acc.total_protein + it.nutrition.protein)
            total_carbs := r1 (acc.total_carbs + it.nutrition.carbs)
            total_fat := r1 (acc.total_fat + it.nutrition.fat) })
        init =
      { total_calories := init.total_calories +
          (items.map (fun it => it.nutrition.calories)).sum
        total_protein := init.total_protein +
          (items.map (fun it => it.nutrition.protein)).sum
        total_carbs := init.total_carbs +
          (items.map (fun it => it.nutrition.carbs)).sum
        total_fat := init.total_fat +
          (items.map (fun it => it.nutrition.fat)).sum } := by
  induction items with
  | nil =>
    intro init h1 h2 h3
    simp
  | cons it t ih =>
    intro init h1 h2 h3
    obtain ⟨hc, hp, hb, hf⟩ := h it (List.mem_cons_self it t)
    have ht := fun x hx => h x (List.mem_cons_of_mem it hx)
    have hps := exists_tenths_add h1 hp
    have hbs := exists_tenths_add h2 hb
    have hfs := exists_tenths_add h3 hf
    simp only [List.foldl_cons, List.map_cons, List.sum_cons]
    rw [r1_eq_self_of_tenths hps, r1_eq_self_of_tenths hbs,
      r1_eq_self_of_tenths hfs]
    rw [ih ht _ hps hbs hfs]
    simp only [NutritionSummary.mk.injEq]
    refine ⟨by ring, by ring, by ring, by ring⟩

/-- Counterexample for C5: in the analyzeFood totals, protein is rounded
once at the end of the item sum, not after each item addition: two items
of 0.06 g protein total 0.1 g there, while the incremental accumulation
the claim describes yields 0.2 g. -/
theorem totals_rounding_counterexample :
    analyzeTotals cexTotalsItems [] ≠ specIncTotals cexTotalsItems [] := by
  have hL : (analyzeTotals cexTotalsItems []).total_protein = 1/10 := by
    norm_num [analyzeTotals, cexTotalsItems, r1, rnd, round_eq]
  have hR : (specIncTotals cexTotalsItems []).total_protein = 1/5 := by
    norm_num [specIncTotals, cexTotalsItems, r1, rnd, round_eq]
  intro h
  rw [h, hR] at hL
  exact absurd hL (by norm_num)

/-- Claim C5 as amended: the saveAdjustedAnalysis totals apply one-decimal
rounding after each item and each add-on addition with an integer-style
running calorie sum, exactly as the claim describes; the analyzeFood
totals instead sum the item macros raw and round once at the end (only its
add-on loop rounds incrementally), which coincides with the incremental
accumulation whenever the items satisfy the wire contract (integer
calories, one-decimal macros). -/
theorem totals_rounding_amended (items : List StoredItem)
    (addOns : List AddOn) :
    adjustedTotals items addOns = specIncTotals items addOns ∧
    ((∀ it ∈ items,
        (∃ k : ℤ, it.nutrition.calories = (k : ℚ)) ∧
        (∃ k : ℤ, it.nutrition.protein = (k : ℚ) / 10) ∧
        (∃ k : ℤ, it.nutrition.carbs = (k : ℚ) / 10) ∧
        (∃ k : ℤ, it.nutrition.fat = (k : ℚ) / 10)) →
      analyzeTotals items addOns = specIncTotals items addOns) := by
  refine ⟨rfl, ?_⟩
  intro h
  obtain ⟨kc, hkc⟩ :=
    sum_int_form (fun it => it.nutrition.calories) items
      (fun it hit => (h it hit).1)
  obtain ⟨kp, hkp⟩ :=
    sum_tenths_form (fun it => it.nutrition.protein) items
      (fun it hit => (h it hit).2.1)
  obtain ⟨kb, hkb⟩ :=
    sum_tenths_form (fun it => it.nutrition.carbs) items
      (fun it hit => (h it hit).2.2.1)
  obtain ⟨kf, hkf⟩ :=
    sum_tenths_form (fun it => it.nutrition.fat) items
      (fun it hit => (h it hit).2.2.2)
  have hbase :
      ({ total_calories :=
            rnd (items.foldl (fun s it => s + it.nutrition.calories) 0)
         total_protein :=
            r1 (items.foldl (fun s it => s + it.nutrition.protein) 0)
         total_carbs :=
            r1 (items.foldl (fun s it => s + it.nutrition.carbs) 0)
         total_fat :=
            r1 (items.foldl (fun s it => s + it.nutrition.fat) 0) } :
          NutritionSummary)
      = items.foldl
          (fun acc it =>
            { total_calories := acc.total_calories + it.nutrition.calories
              total_protein := r1 (acc.total_protein + it.nutrition.protein)
              total_carbs := r1 (acc.total_carbs + it.nutrition.carbs)
              total_fat := r1 (acc.total_fat + it.nutrition.fat) })
          ⟨0, 0, 0, 0⟩ := by
    rw [incFold_eq items h ⟨0, 0, 0, 0⟩ ⟨0, by norm_num⟩ ⟨0, by norm_num⟩
      ⟨0, by norm_num⟩]
    simp only [NutritionSummary.mk.injEq]
    refine ⟨?_, ?_, ?_, ?_⟩
    · rw [foldl_add_eq_sum, hkc, zero_add, rnd_intCast]
    · rw [foldl_add_eq_sum, hkp, zero_add, r1_tenths]
    · rw [foldl_add_eq_sum, hkb, zero_add, r1_tenths]
    · rw [foldl_add_eq_sum, hkf, zero_add, r1_tenths]
  exact congrArg (fun b => addOns.foldl addOnStep b) hbase

/-- Witness for the amended C5: a single wire-contract item. -/
theorem totals_rounding_amended_witness :
    (∀ it ∈ [exItem1],
      (∃ k : ℤ, it.nutrition.calories = (k : ℚ)) ∧
      (∃ k : ℤ, it.nutrition.protein = (k : ℚ) / 10) ∧
      (∃ k : ℤ, it.nutrition.carbs = (k : ℚ) / 10) ∧
      (∃ k : ℤ, it.nutrition.fat = (k : ℚ) / 10)) ∧
    analyzeTotals [exItem1] [] = specIncTotals [exItem1] [] := by
  have hform : ∀ it ∈ [exItem1],
      (∃ k : ℤ, it.nutrition.calories = (k : ℚ)) ∧
      (∃ k : ℤ, it.nutrition.protein = (k : ℚ) / 10) ∧
      (∃ k : ℤ, it.nutrition.carbs = (k : ℚ) / 10) ∧
      (∃ k : ℤ, it.nutrition.fat = (k : ℚ) / 10) := by
    intro it hit
    rw [List.mem_singleton] at hit
    subst hit
    exact ⟨⟨100, by norm_num [exItem1]⟩, ⟨100, by norm_num [exItem1]⟩,
      ⟨200, by norm_num [exItem1]⟩, ⟨50, by norm_num [exItem1]⟩⟩
  exact ⟨hform, (totals_rounding_amended [exItem1] []).2 hform⟩

/-- npos of a strictly positive value. -/
lemma npos_some_pos {g : ℚ} (h : 0 < g) : npos (some g) = g := by
  simp [npos, nposFb, h]

/-- jsOr keeps a non-zero left operand. -/
lemma jsOr_of_ne {a b : ℚ} (h : a ≠ 0) : jsOr a b = a := if_neg h

/-- jsOr falls through a zero left operand. -/
lemma jsOr_of_zero {a b : ℚ} (h : a = 0) : jsOr a b = b := by
  rw [h]; exact if_pos rfl

/-- The serving-size fallback when the value yields no positive number. -/
lemma nposFb_of_npos_zero {v : Option ℚ} (h : npos v = 0) :
    nposFb v 100 = 100 := by
  cases v with
  | none => rfl
  | some x =>
    simp only [npos, nposFb] at h ⊢
    by_cases hx : 0 < x
    · rw [if_pos hx] at h
      exact absurd h (ne_of_gt hx)
    · rw [if_neg hx]

/-- Claim C7: grams resolution obeys the fixed priority.  In the
enrichment path: a positive matched user serving-override wins, else a
positive detection estimate, else a positive match default serving, else
the constant 100.  In the IFCT text path, which has no user override: a
positive detection estimate (under any of its three field spellings, in
their fixed order) wins, else a positive match serving size, else 100.
A lower-priority source is never consulted when a higher-priority one
yields a positive value. -/
theorem grams_priority (ovr est dfl pg psg eg ssg : Option ℚ) :
    ((∀ g, ovr = some g → 0 < g → chooseGramsEnrich ovr est dfl = g) ∧
     (npos ovr = 0 → ∀ g, est = some g → 0 < g →
        chooseGramsEnrich ovr est dfl = g) ∧
     (npos ovr = 0 → npos est = 0 → ∀ g, dfl = some g → 0 < g →
        chooseGramsEnrich ovr est dfl = g) ∧
     (npos ovr = 0 → npos est = 0 → npos dfl = 0 →
        chooseGramsEnrich ovr est dfl = 100)) ∧
    ((∀ g, pg = some g → 0 < g → chooseGramsIFCT pg psg eg ssg = g) ∧
     (npos pg = 0 → ∀ g, psg = some g → 0 < g →
        chooseGramsIFCT pg psg eg ssg = g) ∧
     (npos pg = 0 → npos psg = 0 → ∀ g, eg = some g → 0 < g →
        chooseGramsIFCT pg psg eg ssg = g) ∧
     (npos pg = 0 → npos psg = 0 → npos eg = 0 → ∀ g, ssg = some g →
        0 < g → chooseGramsIFCT pg psg eg ssg = g) ∧
     (npos pg = 0 → npos psg = 0 → npos eg = 0 → npos ssg = 0 →
        chooseGramsIFCT pg psg eg ssg = 100)) := by
  refine ⟨⟨?_, ?_, ?_, ?_⟩, ?_, ?_, ?_, ?_, ?_⟩
  · intro g hg hpos
    rw [chooseGramsEnrich, hg, npos_some_pos hpos, jsOr_of_ne hpos.ne']
  · intro h0 g hg hpos
    rw [chooseGramsEnrich, hg, jsOr_of_zero h0, npos_some_pos hpos,
      jsOr_of_ne hpos.ne']
  · intro h0 h1 g hg hpos
    rw [chooseGramsEnrich, hg, jsOr_of_zero h0, jsOr_of_zero h1,
      npos_some_pos hpos, jsOr_of_ne hpos.ne']
  · intro h0 h1 h2
    rw [chooseGramsEnrich, jsOr_of_zero h0, jsOr_of_zero h1,
      jsOr_of_zero h2]
  · intro g hg hpos
    rw [chooseGramsIFCT, hg, npos_some_pos hpos, jsOr_of_ne hpos.ne']
  · intro h0 g hg hpos
    rw [chooseGramsIFCT, hg, jsOr_of_zero h0, npos_some_pos hpos,
      jsOr_of_ne hpos.ne']
  · intro h0 h1 g hg hpos
    rw [chooseGramsIFCT, hg, jsOr_of_zero h0, jsOr_of_zero h1,
      npos_some_pos hpos, jsOr_of_ne hpos.ne']
  · intro h0 h1 h2 g hg hpos
    have : nposFb ssg 100 = g := by rw [hg]; unfold nposFb; exact if_pos hpos
    rw [chooseGramsIFCT, jsOr_of_zero h0, jsOr_of_zero h1, jsOr_of_zero h2,
      this]
  · intro h0 h1 h2 h3
    rw [chooseGramsIFCT, jsOr_of_zero h0, jsOr_of_zero h1, jsOr_of_zero h2,
      nposFb_of_npos_zero h3]

/-- Witness for C7: a positive override wins; with a zero override the
estimate wins; the IFCT path falls back to 100 when nothing is positive. -/
theorem grams_priority_witness :
    chooseGramsEnrich (some 150) (some 200) (some 80) = 150 ∧
    chooseGramsEnrich (some 0) (some 200) (some 80) = 200 ∧
    chooseGramsIFCT none none (some 120) (some 60) = 120 ∧
    chooseGramsIFCT none none none none = 100 :=
  ⟨((grams_priority (some 150) (some 200) (some 80) none none none
      none).1).1 150 rfl (by norm_num),
   ((grams_priority (some 0) (some 200) (some 80) none none none
      none).1).2.1 (by norm_num [npos, nposFb]) 200 rfl (by norm_num),
   ((grams_priority none none none none none (some 120) (some 60)).2).2.2.1
     rfl rfl 120 rfl (by norm_num),
   ((grams_priority none none none none none none none).2).2.2.2.2
     rfl rfl rfl rfl⟩

/-- Counterexample for C6: when both lookups return a row, fetchTopFromDB
(the IFCT text path) serves the ingredient-lookup row, not the
personal/global row the claimed ordering would give. -/
theorem lookup_order_counterexample :
    fetchTopFromDB "rice" (Except.ok [exIngRow]) (Except.ok [exPerRow])
      ≠ specFetchTopPersonalFirst "rice" (Except.ok [exIngRow])
          (Except.ok [exPerRow]) := by
  have hL : fetchTopFromDB "rice" (Except.ok [exIngRow])
      (Except.ok [exPerRow])
      = Except.ok (some (ifctOfIngredient "rice" exIngRow)) := by
    simp [fetchTopFromDB, caughtRows]
  have hR : specFetchTopPersonalFirst "rice" (Except.ok [exIngRow])
      (Except.ok [exPerRow])
      = Except.ok (some (ifctOfPersonal "rice" exPerRow)) := by
    simp [specFetchTopPersonalFirst, caughtRows, exPerRow]
  intro h
  rw [hL, hR] at h
  have h2 := congrArg
    (fun x =>
      match x with
      | Except.ok (some f) => f.energy_kcal_per_100g
      | _ => 0) h
  simp [ifctOfIngredient, ifctOfPersonal, exIngRow, exPerRow, nz] at h2

/-- Claim C6 as amended: in the enrichment path the personal/global
lookup is tried first and the ingredient-only lookup only when it yields
nothing; in the IFCT text path (fetchTopFromDB) the order is reversed —
the ingredient-only lookup is tried first and the global personal lookup
second; in both paths a failed or empty lookup falls through, a double
failure yields null / leaves the item unresolved, and no exception ever
escapes (the result is always an ok value). -/
theorem lookup_chain_amended (q : String)
    (personal : Except String (List PersonalRow))
    (ingredient : Except String (List IngredientRow)) :
    enrichResolvePick personal ingredient
        = Except.ok (specEnrichPick personal ingredient) ∧
    fetchTopFromDB q ingredient personal
        = Except.ok (specIFCTPick q ingredient personal) := by
  constructor
  · cases h : (caughtRows personal).head? <;>
      simp [enrichResolvePick, specEnrichPick, h]
  · cases h : (caughtRows ingredient).head? <;>
      simp [fetchTopFromDB, specIFCTPick, h]

/-- Math.round is within a half unit. -/
lemma abs_rnd_sub (q : ℚ) : |rnd q - q| ≤ 1/2 := by
  rw [abs_sub_comm]
  exact abs_sub_round q

/-- One-decimal rounding is within a twentieth. -/
lemma abs_r1_sub (q : ℚ) : |r1 q - q| ≤ 1/20 := by
  have h : r1 q - q = (rnd (q * 10) - q * 10) / 10 := by
    unfold r1
    ring
  rw [h, abs_div, abs_of_pos (show (0:ℚ) < 10 by norm_num)]
  have := abs_rnd_sub (q * 10)
  linarith

/-- Integer-rounded scale-down then scale-up: the error is at most
1/2 + 50/G. -/
lemma int_roundtrip (c G : ℚ) (hG : 0 < G) :
    |rnd ((rnd (c * (G/100))) * (100/G)) - c| ≤ 1/2 + 50/G := by
  set y := rnd (c * (G/100)) with hy
  have h1 : |rnd (y * (100/G)) - y * (100/G)| ≤ 1/2 := abs_rnd_sub _
  have h2 : |y - c * (G/100)| ≤ 1/2 := abs_rnd_sub _
  have hGne : G ≠ 0 := hG.ne'
  have h3 : y * (100/G) - c = (100/G) * (y - c * (G/100)) := by
    field_simp
    ring
  have h4 : |y * (100/G) - c| ≤ (100/G) * (1/2) := by
    rw [h3, abs_mul, abs_of_pos (show (0:ℚ) < 100/G by positivity)]
    exact mul_le_mul_of_nonneg_left h2 (by positivity)
  calc |rnd (y * (100/G)) - c|
      ≤ |rnd (y * (100/G)) - y * (100/G)| + |y * (100/G) - c| :=
        abs_sub_le _ _ _
    _ ≤ 1/2 + (100/G) * (1/2) := add_le_add h1 h4
    _ = 1/2 + 50/G := by ring

/-- Decimal-rounded scale-down then scale-up: the error is at most
1/20 + 5/G. -/
lemma dec_roundtrip (p G : ℚ) (hG : 0 < G) :
    |r1 ((r1 (p * (G/100))) * (100/G)) - p| ≤ 1/20 + 5/G := by
  set y := r1 (p * (G/100)) with hy
  have h1 : |r1 (y * (100/G)) - y * (100/G)| ≤ 1/20 := abs_r1_sub _
  have h2 : |y - p * (G/100)| ≤ 1/20 := abs_r1_sub _
  have hGne : G ≠ 0 := hG.ne'
  have h3 : y * (100/G) - p = (100/G) * (y - p * (G/100)) := by
    field_simp
    ring
  have h4 : |y * (100/G) - p| ≤ (100/G) * (1/20) := by
    rw [h3, abs_mul, abs_of_pos (show (0:ℚ) < 100/G by positivity)]
    exact mul_le_mul_of_nonneg_left h2 (by positivity)
  calc |r1 (y * (100/G)) - p|
      ≤ |r1 (y * (100/G)) - y * (100/G)| + |y * (100/G) - p| :=
        abs_sub_le _ _ _
    _ ≤ 1/20 + (100/G) * (1/20) := add_le_add h1 h4
    _ = 1/20 + 5/G := by ring

/-- For positive grams the round trip is the double application of the
adjustment scaling. -/
lemma roundTrip_eq (m : NutritionFacts) (G : ℚ) (hG : 0 < G) :
    roundTrip m G
      = adjustNutrition (adjustNutrition m (G/100)) (100/G) := by
  unfold roundTrip applyEdit scalePer100 oldGramsOf newGramsOf adjScale
  simp [hG.ne', hG]

/-- Counterexample for C9: per-100g calories 14 scaled to 10 g round to
1 kcal; rescaling to 100 g gives 10 kcal, off by 4 — far outside the
claimed ±1 tolerance for integer fields. -/
theorem scaling_consistency_counterexample :
    ¬ (|(roundTrip cexM 10).calories - cexM.calories| ≤ 1) := by
  have h : (roundTrip cexM 10).calories = 10 := by
    rw [roundTrip_eq cexM 10 (by norm_num)]
    norm_num [adjustNutrition, cexM, rnd, round_eq]
  rw [h]
  norm_num [cexM]

/-- Claim C9 as amended: for every per-100g record M and positive grams G,
scaling to G, storing, and rescaling to 100 g through the adjustment rule
reproduces every field within ±(1/2 + 50/G) for the integer-rounded
fields and ±(1/20 + 5/G) for the one-decimal fields; for G ≥ 100 these
bounds are within the originally claimed ±1 and ±0.1. -/
theorem scaling_consistency_amended (m : NutritionFacts) (G : ℚ)
    (hG : 0 < G) :
    |(roundTrip m G).calories - m.calories| ≤ 1/2 + 50/G ∧
    |(roundTrip m G).sodium - m.sodium| ≤ 1/2 + 50/G ∧
    |(roundTrip m G).cholesterol - m.cholesterol| ≤ 1/2 + 50/G ∧
    |(roundTrip m G).protein - m.protein| ≤ 1/20 + 5/G ∧
    |(roundTrip m G).carbs - m.carbs| ≤ 1/20 + 5/G ∧
    |(roundTrip m G).fat - m.fat| ≤ 1/20 + 5/G ∧
    |(roundTrip m G).fiber - m.fiber| ≤ 1/20 + 5/G ∧
    |(roundTrip m G).sugar - m.sugar| ≤ 1/20 + 5/G := by
  rw [roundTrip_eq m G hG]
  refine ⟨?_, ?_, ?_, ?_, ?_, ?_, ?_, ?_⟩
  · simpa [adjustNutrition] using int_roundtrip m.calories G hG
  · simpa [adjustNutrition] using int_roundtrip m.sodium G hG
  · simpa [adjustNutrition] using int_roundtrip m.cholesterol G hG
  · simpa [adjustNutrition] using dec_roundtrip m.protein G hG
  · simpa [adjustNutrition] using dec_roundtrip m.carbs G hG
  · simpa [adjustNutrition] using dec_roundtrip m.fat G hG
  · simpa [adjustNutrition] using dec_roundtrip m.fiber G hG
  · simpa [adjustNutrition] using dec_roundtrip m.sugar G hG

/-- Witness for the amended C9: the bound applied at G = 100. -/
theorem scaling_consistency_amended_witness :
    (0 : ℚ) < 100 ∧
    (|(roundTrip cexM 100).calories - cexM.calories| ≤ 1/2 + 50/100 ∧
     |(roundTrip cexM 100).sodium - cexM.sodium| ≤ 1/2 + 50/100 ∧
     |(roundTrip cexM 100).cholesterol - cexM.cholesterol| ≤ 1/2 + 50/100 ∧
     |(roundTrip cexM 100).protein - cexM.protein| ≤ 1/20 + 5/100 ∧
     |(roundTrip cexM 100).carbs - cexM.carbs| ≤ 1/20 + 5/100 ∧
     |(roundTrip cexM 100).fat - cexM.fat| ≤ 1/20 + 5/100 ∧
     |(roundTrip cexM 100).fiber - cexM.fiber| ≤ 1/20 + 5/100 ∧
     |(roundTrip cexM 100).sugar - cexM.sugar| ≤ 1/20 + 5/100) :=
  ⟨by norm_num, scaling_consistency_amended cexM 100 (by norm_num)⟩

/-- The second component of an enum entry is a list member. -/
lemma snd_mem_of_mem_enum {α : Type} {l : List α} {p : ℕ × α}
    (h : p ∈ l.enum) : p.2 ∈ l := by
  rw [List.mem_enum_iff_getElem?] at h
  exact List.getElem?_mem h

/-- On an itemId that is absent or a positive integer, the source merge
key agrees with the specification merge key. -/
lemma makeKey_eq_spec (it : ProviderItem) (idx : ℕ)
    (h : ∀ q, it.itemId = some q → q.den = 1 ∧ 0 < q) :
    makeKey it idx = specMakeKey it idx := by
  unfold makeKey specMakeKey
  cases hq : it.itemId with
  | none => rfl
  | some q =>
    have hh := h q hq
    simp [hh, hh.2]

/-- The inner grouping fold only depends on the key of each encountered
entry. -/
lemma innerFold_congr (k1 k2 : ProviderItem → ℕ → MergeKey)
    (l : List (ℕ × ProviderItem)) (h : ∀ p ∈ l, k1 p.2 p.1 = k2 p.2 p.1) :
    ∀ acc, l.foldl (fun acc2 p => insertGrouped acc2 (k1 p.2 p.1) p.2) acc
      = l.foldl (fun acc2 p => insertGrouped acc2 (k2 p.2 p.1) p.2) acc := by
  induction l with
  | nil => intro acc; rfl
  | cons p t ih =>
    intro acc
    simp only [List.foldl_cons]
    rw [h p (List.mem_cons_self p t)]
    exact ih (fun q hq => h q (List.mem_cons_of_mem p hq)) _

/-- The outer grouping fold only depends on the key of each encountered
item. -/
lemma groupFold_congr (k1 k2 : ProviderItem → ℕ → MergeKey) :
    ∀ (analyses : List AIAnalysisResult)
      (acc : List (MergeKey × List ProviderItem)),
      (∀ a ∈ analyses, ∀ it ∈ a.detectedItems, ∀ idx,
        k1 it idx = k2 it idx) →
      analyses.foldl
        (fun acc a =>
          a.detectedItems.enum.foldl
            (fun acc2 p => insertGrouped acc2 (k1 p.2 p.1) p.2) acc) acc
      = analyses.foldl
        (fun acc a =>
          a.detectedItems.enum.foldl
            (fun acc2 p => insertGrouped acc2 (k2 p.2 p.1) p.2) acc) acc := by
  intro analyses
  induction analyses with
  | nil => intro acc h; rfl
  | cons a t ih =>
    intro acc h
    simp only [List.foldl_cons]
    rw [innerFold_congr k1 k2 a.detectedItems.enum
      (fun p hp =>
        h a (List.mem_cons_self a t) p.2 (snd_mem_of_mem_enum hp) p.1) acc]
    exact ih _ (fun x hx it hit idx => h x (List.mem_cons_of_mem a hx) it hit idx)

/-- The grouping only depends on the key of each encountered item. -/
lemma groupByKey_congr (k1 k2 : ProviderItem → ℕ → MergeKey)
    (analyses : List AIAnalysisResult)
    (h : ∀ a ∈ analyses, ∀ it ∈ a.detectedItems, ∀ idx,
      k1 it idx = k2 it idx) :
    groupByKey k1 analyses = groupByKey k2 analyses :=
  groupFold_congr k1 k2 analyses [] h

/-- Inserting an item satisfying P into a grouping whose members all
satisfy P keeps every member satisfying P. -/
lemma insertGrouped_members {P : ProviderItem → Prop}
    (k : MergeKey) (it : ProviderItem) (hit : P it) :
    ∀ (acc : List (MergeKey × List ProviderItem)),
      (∀ kg ∈ acc, ∀ x ∈ kg.2, P x) →
      ∀ kg ∈ insertGrouped acc k it, ∀ x ∈ kg.2, P x := by
  intro acc
  induction acc with
  | nil =>
    intro _ kg hkg x hx
    simp only [insertGrouped, List.mem_singleton] at hkg
    subst hkg
    simp only [List.mem_singleton] at hx
    subst hx
    exact hit
  | cons hd tl ih =>
    obtain ⟨k0, g⟩ := hd
    intro hacc kg hkg x hx
    unfold insertGrouped at hkg
    by_cases hk : k0 = k
    · rw [if_pos hk] at hkg
      rcases List.mem_cons.mp hkg with hkg1 | hkg2
      · subst hkg1
        simp only [List.mem_append, List.mem_singleton] at hx
        rcases hx with hx1 | hx2
        · exact hacc (k0, g) (List.mem_cons_self _ _) x hx1
        · subst hx2; exact hit
      · exact hacc kg (List.mem_cons_of_mem _ hkg2) x hx
    · rw [if_neg hk] at hkg
      rcases List.mem_cons.mp hkg with hkg1 | hkg2
      · subst hkg1
        exact hacc (k0, g) (List.mem_cons_self _ _) x hx
      · exact ih (fun kg2 hkg2b => hacc kg2 (List.mem_cons_of_mem _ hkg2b))
          kg hkg2 x hx

/-- The inner grouping fold preserves the member invariant. -/
lemma innerFold_members {P : ProviderItem → Prop}
    (keyFn : ProviderItem → ℕ → MergeKey) :
    ∀ (l : List (ℕ × ProviderItem)), (∀ p ∈ l, P p.2) →
      ∀ acc, (∀ kg ∈ acc, ∀ x ∈ kg.2, P x) →
      ∀ kg ∈ l.foldl
        (fun acc2 p => insertGrouped acc2 (keyFn p.2 p.1) p.2) acc,
        ∀ x ∈ kg.2, P x := by
  intro l
  induction l with
  | nil =>
    intro _ acc hacc kg hkg
    exact hacc kg hkg
  | cons p t ih =>
    intro hl acc hacc
    simp only [List.foldl_cons]
    exact ih (fun q hq => hl q (List.mem_cons_of_mem p hq)) _
      (insertGrouped_members _ _ (hl p (List.mem_cons_self p t)) acc hacc)

/-- Every member of every group produced by groupByKey is an item of one
of the result sets. -/
lemma groupByKey_members {P : ProviderItem → Prop}
    (keyFn : ProviderItem → ℕ → MergeKey) :
    ∀ (analyses : List AIAnalysisResult),
      (∀ a ∈ analyses, ∀ it ∈ a.detectedItems, P it) →
      ∀ acc, (∀ kg ∈ acc, ∀ x ∈ kg.2, P x) →
      ∀ kg ∈ analyses.foldl
        (fun acc a =>
          a.detectedItems.enum.foldl
            (fun acc2 p => insertGrouped acc2 (keyFn p.2 p.1) p.2) acc) acc,
        ∀ x ∈ kg.2, P x := by
  intro analyses
  induction analyses with
  | nil =>
    intro _ acc hacc kg hkg
    exact hacc kg hkg
  | cons a t ih =>
    intro h acc hacc
    simp only [List.foldl_cons]
    exact ih (fun b hb it hit => h b (List.mem_cons_of_mem a hb) it hit) _
      (innerFold_members keyFn a.detectedItems.enum
        (fun p hp => h a (List.mem_cons_self a t) p.2 (snd_mem_of_mem_enum hp))
        acc hacc)

/-- On groups of positive-confidence items the default-filled confidence
sum is the plain sum. -/
lemma confSum_eq_of_pos (g : List ProviderItem)
    (h : ∀ x ∈ g, 0 < x.confidence) :
    confSumWithDefault g = g.foldl (fun s x => s + x.confidence) 0 := by
  unfold confSumWithDefault
  suffices hs : ∀ s : ℚ,
      g.foldl
        (fun s x => s + (if x.confidence = 0 then 6/10 else x.confidence)) s
      = g.foldl (fun s x => s + x.confidence) s from hs 0
  induction g with
  | nil => intro s; rfl
  | cons x t ih =>
    intro s
    simp only [List.foldl_cons]
    rw [if_neg (h x (List.mem_cons_self x t)).ne']
    exact ih (fun y hy => h y (List.mem_cons_of_mem x hy)) _

/-- On a group of positive-confidence items the source merge agrees with
the specification merge. -/
lemma mergeGroup_eq_spec (g : List ProviderItem) (i : ℕ)
    (h : ∀ x ∈ g, 0 < x.confidence) :
    mergeGroup g i = specMergeGroup g i := by
  cases g with
  | nil => rfl
  | cons base t =>
    unfold mergeGroup specMergeGroup
    rw [confSum_eq_of_pos (base :: t) h]

/-- Auxiliary domain-restricted agreement: on result sets whose itemIds
are absent or positive integers and whose item confidences are positive,
the combiner agrees with the merge exactly as the original claim words
it. -/
theorem merge_determinism (analyses : List AIAnalysisResult)
    (hlen : 2 ≤ analyses.length)
    (hid : ∀ a ∈ analyses, ∀ it ∈ a.detectedItems, ∀ q,
      it.itemId = some q → q.den = 1 ∧ 0 < q)
    (hconf : ∀ a ∈ analyses, ∀ it ∈ a.detectedItems, 0 < it.confidence) :
    (combineAnalysisResults analyses).detectedItems
      = specMergedItems analyses := by
  match analyses, hlen with
  | a :: b :: t, _ =>
    have hgoal :
        mergeGroups (groupByKey makeKey (a :: b :: t))
          = specMergedItems (a :: b :: t) := by
      unfold mergeGroups specMergedItems
      rw [groupByKey_congr makeKey specMakeKey (a :: b :: t)
        (fun x hx it hit idx => makeKey_eq_spec it idx (hid x hx it hit))]
      apply List.map_congr_left
      intro p hp
      exact mergeGroup_eq_spec p.2.2 p.1
        (groupByKey_members specMakeKey (a :: b :: t) hconf []
          (by intro kg hkg; simp at hkg) p.2 (snd_mem_of_mem_enum hp))
    exact hgoal

/-- Concrete instance of the agreement: merging two one-item sets with
itemId 1 and confidences 0.6 and 0.8 matches the specification merge,
whose single merged item has confidence 0.7. -/
theorem merge_determinism_witness :
    2 ≤ ([exSet1, exSet2] : List AIAnalysisResult).length ∧
    (combineAnalysisResults [exSet1, exSet2]).detectedItems
      = specMergedItems [exSet1, exSet2] ∧
    specMergedItems [exSet1, exSet2]
      = [⟨some 1, "dal", 7/10, ⟨0, 0, 0, 0, 0, 0, 0, 0⟩, none⟩] := by
  have hid : ∀ a ∈ [exSet1, exSet2], ∀ it ∈ a.detectedItems, ∀ q,
      it.itemId = some q → q.den = 1 ∧ 0 < q := by
    intro a ha it hit q hq
    have h1 : it.itemId = some 1 := by
      rcases List.mem_cons.mp ha with rfl | ha2
      · simp only [exSet1, List.mem_singleton] at hit
        subst hit
        rfl
      · rcases List.mem_singleton.mp ha2 with rfl
        simp only [exSet2, List.mem_singleton] at hit
        subst hit
        rfl
    rw [h1] at hq
    have hq2 : (1 : ℚ) = q := by injection hq
    subst hq2
    exact ⟨rfl, by norm_num⟩
  have hconf : ∀ a ∈ [exSet1, exSet2], ∀ it ∈ a.detectedItems,
      0 < it.confidence := by
    intro a ha it hit
    rcases List.mem_cons.mp ha with rfl | ha2
    · simp only [exSet1, List.mem_singleton] at hit
      subst hit
      norm_num [exProvItem1]
    · rcases List.mem_singleton.mp ha2 with rfl
      simp only [exSet2, List.mem_singleton] at hit
      subst hit
      norm_num [exProvItem2]
  refine ⟨by norm_num,
    merge_determinism [exSet1, exSet2] (by norm_num) hid hconf, ?_⟩
  norm_num [specMergedItems, groupByKey, insertGrouped, specMakeKey,
    specMergeGroup, clamp01, exSet1, exSet2, exProvItem1, exProvItem2,
    List.enum, List.enumFrom, min_def, max_def]

/-- Counterexample for C2: two result sets, each one item with the
non-integer positive itemId 5/2 (different names, confidences 0 and 0.8).
The source keys both by id and merges them into one item, while the
claimed key rule (id only for positive INTEGER itemIds, else name) keeps
them apart as two items — and in the merged group the source counts the
zero confidence as 0.6, not 0 as the claimed plain mean would. -/
theorem merge_claim_counterexample :
    (combineAnalysisResults [cexSetA, cexSetB]).detectedItems
      ≠ specMergedItems [cexSetA, cexSetB] := by
  have hpos : 0 < cexFracId := by decide
  have hden : ¬ (cexFracId.den = 1 ∧ 0 < cexFracId) := fun hc =>
    absurd hc.1 (by decide)
  have hname1 : jsTrim (jsToLower "alpha") = "alpha" := by decide
  have hname2 : jsTrim (jsToLower "beta") = "beta" := by decide
  have hne1 : ¬ (("alpha" : String) = "") := by decide
  have hne2 : ¬ (("beta" : String) = "") := by decide
  have hne3 : ¬ (("alpha" : String) = "beta") := by decide
  have hL : (combineAnalysisResults [cexSetA, cexSetB]).detectedItems
      = [mergeGroup [cexProvItemA, cexProvItemB] 0] := by
    simp [combineAnalysisResults, mergeGroups, groupByKey, List.enum,
      List.enumFrom, insertGrouped, makeKey, cexSetA, cexSetB,
      cexProvItemA, cexProvItemB, hpos]
  have hR : specMergedItems [cexSetA, cexSetB]
      = [specMergeGroup [cexProvItemA] 0, specMergeGroup [cexProvItemB] 1] := by
    simp [specMergedItems, groupByKey, List.enum, List.enumFrom,
      insertGrouped, specMakeKey, cexSetA, cexSetB, cexProvItemA,
      cexProvItemB, hden, hname1, hname2, hne1, hne2, hne3]
  intro h
  rw [hL, hR] at h
  have hlen := congrArg List.length h
  simp at hlen

/-- Claim C2 as amended: for every input of two or more provider result
sets, items are grouped in encounter order by the merge key — id:itemId
for any positive numeric itemId (integrality is not required), else the
non-empty lowercased trimmed name, else the positional index — and each
merged item copies all fields from the group's first member except
confidence, which becomes the arithmetic mean in which a missing or zero
member confidence counts as 0.6, clamped to [0, 1], and itemId, which is
the base itemId or groupIndex + 1 if absent. -/
theorem merge_determinism_amended (analyses : List AIAnalysisResult)
    (hlen : 2 ≤ analyses.length) :
    (combineAnalysisResults analyses).detectedItems
      = specMergedItemsAmended analyses := by
  match analyses, hlen with
  | a :: b :: t, _ => rfl

/-- Witness for the amended C2: the 0.6/0.8 example, where the merged
item carries confidence 0.7. -/
theorem merge_determinism_amended_witness :
    2 ≤ ([exSet1, exSet2] : List AIAnalysisResult).length ∧
    (combineAnalysisResults [exSet1, exSet2]).detectedItems
      = specMergedItemsAmended [exSet1, exSet2] ∧
    (combineAnalysisResults [exSet1, exSet2]).detectedItems
      = [⟨some 1, "dal", 7/10, ⟨0, 0, 0, 0, 0, 0, 0, 0⟩, none⟩] := by
  refine ⟨by norm_num,
    merge_determinism_amended [exSet1, exSet2] (by norm_num), ?_⟩
  norm_num [combineAnalysisResults, mergeGroups, groupByKey,
    insertGrouped, makeKey, mergeGroup, confSumWithDefault, clamp01,
    exSet1, exSet2, exProvItem1, exProvItem2, List.enum, List.enumFrom,
    min_def, max_def]

end DietTrack
